import Mathlib

/-!
# Mandoob delivery API — order lifecycle and rider-assignment core

Shallow embedding of the four Express route files of the repository:
* `src/routes/orderRoute.js` — order creation, rider status transitions;
* the admin route file — rider creation, order assignment, user toggling;
* the rider route file — location updates, online toggling, order failure.

Mongo documents are embedded as association lists keyed by numeric ids;
`new Date()` is embedded as a global `now : Nat` counter that every route
advances, so all timestamps written by one request share one value and
later requests get strictly larger ones. Socket.io emissions
(`global.io.to(...).emit(...)`) are embedded as an append-only event log.
-/

namespace Mandoob

/-- Error responses the routes return before mutating anything.
`notFound` is the 404 branch; `conflict` is the 400
"Rider already has an active order" branch (the spec's `Conflict`). -/
inductive Err where
  | notFound
  | conflict
deriving Repr, DecidableEq, Inhabited

/-- A latitude/longitude pair as stored in Mongo documents. -/
structure Coordinates where
  latitude : Int
  longitude : Int
deriving Repr, DecidableEq, Inhabited

/-- One entry of an order's `timeline` array. -/
structure TimelineEntry where
  status : String
  timestamp : Nat
  notes : Option String
  location : Option Coordinates
deriving Repr, DecidableEq, Inhabited

/-- The `Order` document fields the core reads or writes.
The schema file `src/models/Order.js` is not part of the sources;
the `status` default `pending` used by the create route is modelled
from the spec (§4.2: create "initializes status `pending`"). -/
structure Order where
  business : Nat
  rider : Option Nat
  status : String
  pickupAddress : String
  dropoffAddress : String
  timeline : List TimelineEntry
  failureReason : Option String
  actualDeliveryTime : Option Nat
deriving Repr, DecidableEq, Inhabited

/-- The `RiderLocation` document. -/
structure RiderLocation where
  location : Coordinates
  isOnline : Bool
  currentOrder : Option Nat
deriving Repr, DecidableEq, Inhabited

/-- The slice of the `User` document the core needs for riders. -/
structure Rider where
  isActive : Bool
deriving Repr, DecidableEq, Inhabited

/-- Kinds of socket.io emissions performed by the routes. -/
inductive EventKind where
  | statusUpdate
  | locationUpdate
deriving Repr, DecidableEq, Inhabited

/-- One socket.io emission to the room `order-<orderId>`.
`location` is `some (lat?, lng?)` when the payload carries a `location`
object (whose two fields may themselves be `undefined`), `none` when the
payload has no `location` key at all. -/
structure Event where
  kind : EventKind
  orderId : Nat
  status : Option String
  timestamp : Nat
  location : Option (Option Int × Option Int)
  reason : Option String
deriving Repr, DecidableEq, Inhabited

/-- Whole-system state: the three Mongo collections, the event log,
and the server clock. -/
structure SysState where
  orders : List (Nat × Order)
  riders : List (Nat × Rider)
  riderLocs : List (Nat × RiderLocation)
  events : List Event
  now : Nat
deriving Repr, DecidableEq, Inhabited

/-- `findOne`/`findById` on a collection keyed by id. -/
def lookup (l : List (Nat × α)) (k : Nat) : Option α :=
  (l.find? (fun p => p.1 == k)).map (·.2)

/-- `findOneAndUpdate` without upsert / `document.save()`: rewrite the
document stored under key `k` (keys are unique in a Mongo collection,
so mapping over the list is the same as updating the one match). -/
def modifyEntry (l : List (Nat × α)) (k : Nat) (f : α → α) : List (Nat × α) :=
  l.map fun p => if p.1 == k then (p.1, f p.2) else p

/-- Truthiness of a JS number that may be `undefined`:
`undefined` and `0` are falsy, any other number is truthy. -/
def jsTruthyNum : Option Int → Bool
  | none => false
  | some v => v != 0

/-- `latitude && longitude ? { latitude, longitude } : undefined`
from the status route's `timeline.push`. -/
def entryLocation (lat lng : Option Int) : Option Coordinates :=
  match lat, lng with
  | some a, some b => if a != 0 && b != 0 then some (Coordinates.mk a b) else none
  | _, _ => none

/-- Statuses counted as active by the assign route's
`status: { $in: ['assigned', 'picked_up', 'in_transit'] }` query. -/
def isActiveStatus (st : String) : Bool :=
  st == "assigned" || st == "picked_up" || st == "in_transit"

/-- The predicate of the assign route's active-order query for rider `rid`. -/
def isActiveFor (rid : Nat) (p : Nat × Order) : Bool :=
  p.2.rider == some rid && isActiveStatus p.2.status

/-- `Order.findOne({ rider, status: { $in: [...] } })` returns a document. -/
def hasActiveOrder (s : SysState) (rid : Nat) : Bool :=
  s.orders.any (isActiveFor rid)

/-- Number of active orders bound to rider `rid`. -/
def activeCount (s : SysState) (rid : Nat) : Nat :=
  (s.orders.filter (isActiveFor rid)).length

/-- The spec's core invariant (§8): every rider holds at most one order
whose status is `assigned`, `picked_up` or `in_transit`. -/
def AtMostOneActive (s : SysState) : Prop :=
  ∀ rid, activeCount s rid ≤ 1

/-- `POST /` of `orderRoute.js` (business creates an order): the new
document starts with a one-entry `pending` timeline, no rider, and the
schema-default status `pending`. `oid` is the fresh Mongo id. -/
def createOrder (s : SysState) (oid businessId : Nat)
    (pickupAddress dropoffAddress : String) : SysState :=
  let o : Order :=
    { business := businessId
      rider := none
      status := "pending"
      pickupAddress := pickupAddress
      dropoffAddress := dropoffAddress
      timeline := [{ status := "pending", timestamp := s.now
                     notes := some "Order created", location := none }]
      failureReason := none
      actualDeliveryTime := none }
  { s with orders := s.orders ++ [(oid, o)], now := s.now + 1 }

/-- `POST /riders` of the admin route file: creates the rider user and
its `RiderLocation` record at `(0,0)`, offline, no current order.
The `User` schema is not in the sources; its `isActive` default is
modelled from the spec (riders are assignment-eligible once created,
and the admin toggle route flips the flag later). -/
def createRider (s : SysState) (rid : Nat) : SysState :=
  { s with
      riders := s.riders ++ [(rid, { isActive := true })]
      riderLocs := s.riderLocs ++
        [(rid, { location := { latitude := 0, longitude := 0 }
                 isOnline := false, currentOrder := none })]
      now := s.now + 1 }

/-- Read-and-check phase of `POST /orders/:orderId/assign`: the three
`await`ed queries that precede any write. Returns the order document
read, exactly as the route holds it in the `order` variable. -/
def assignCheck (s : SysState) (oid rid : Nat) : Except Err Order :=
  match lookup s.orders oid with
  | none => .error .notFound
  | some o =>
    match lookup s.riders rid with
    | none => .error .notFound
    | some r =>
      if !r.isActive then .error .notFound
      else if hasActiveOrder s rid then .error .conflict
      else .ok o

/-- Write phase of `POST /orders/:orderId/assign`: mutates the order
document `o` read at check time, saves it, then points the rider's
`RiderLocation.currentOrder` at it (no upsert: a missing location
record is left missing). -/
def assignCommit (s : SysState) (oid rid : Nat) (o : Order) : SysState :=
  let o' : Order :=
    { o with rider := some rid, status := "assigned"
             timeline := o.timeline ++
               [{ status := "assigned", timestamp := s.now
                  notes := some "Order assigned to rider", location := none }] }
  { s with
      orders := modifyEntry s.orders oid (fun _ => o')
      riderLocs := modifyEntry s.riderLocs rid
        (fun loc => { loc with currentOrder := some oid })
      now := s.now + 1 }

/-- `POST /orders/:orderId/assign` run as one uninterrupted request:
check phase followed by write phase. -/
def assign (s : SysState) (oid rid : Nat) : Except Err SysState :=
  (assignCheck s oid rid).map (assignCommit s oid rid)

/-- `PATCH /:orderId/status` of `orderRoute.js`: the rider `rid` moves
the order to an arbitrary `status` string; no adjacency check, a
timeline push whose `location` follows JS truthiness of the
coordinates, `actualDeliveryTime` stamped on `delivered`, and a
`status-update` emission whose payload always carries a `location`
object. The rider's `RiderLocation` is not touched. -/
def transition (s : SysState) (oid rid : Nat) (status : String)
    (notes : Option String) (lat lng : Option Int) : Except Err SysState :=
  match lookup s.orders oid with
  | none => .error .notFound
  | some o =>
    if o.rider == some rid then
      let o' : Order :=
        { o with status := status
                 timeline := o.timeline ++
                   [{ status := status, timestamp := s.now
                      notes := notes, location := entryLocation lat lng }]
                 actualDeliveryTime :=
                   if status == "delivered" then some s.now
                   else o.actualDeliveryTime }
      let ev : Event :=
        { kind := .statusUpdate, orderId := oid, status := some status
          timestamp := s.now, location := some (lat, lng), reason := none }
      .ok { s with orders := modifyEntry s.orders oid (fun _ => o')
                   events := s.events ++ [ev]
                   now := s.now + 1 }
    else .error .notFound

/-- `POST /orders/:orderId/fail` of the rider route file: marks the
order failed with `failureReason`, pushes a `Delivery failed: <reason>`
timeline entry, `$unset`s the rider's `currentOrder`, and emits a
`status-update` carrying the reason and no location object. -/
def failOrder (s : SysState) (oid rid : Nat) (reason : String) :
    Except Err SysState :=
  match lookup s.orders oid with
  | none => .error .notFound
  | some o =>
    if o.rider == some rid then
      let o' : Order :=
        { o with status := "failed", failureReason := some reason
                 timeline := o.timeline ++
                   [{ status := "failed", timestamp := s.now
                      notes := some ("Delivery failed: " ++ reason)
                      location := none }] }
      let ev : Event :=
        { kind := .statusUpdate, orderId := oid, status := some "failed"
          timestamp := s.now, location := none, reason := some reason }
      .ok { s with orders := modifyEntry s.orders oid (fun _ => o')
                   riderLocs := modifyEntry s.riderLocs rid
                     (fun loc => { loc with currentOrder := none })
                   events := s.events ++ [ev]
                   now := s.now + 1 }
    else .error .notFound

/-- `POST /location` of the rider route file: upserts the rider's
location record (`isOnline !== undefined ? isOnline : true`), then, if
the resulting record has a `currentOrder`, emits a `location-update`
to that order's room. -/
def updateLocation (s : SysState) (rid : Nat) (lat lng : Int)
    (isOnline : Option Bool) : SysState :=
  let newLoc : RiderLocation :=
    match lookup s.riderLocs rid with
    | some loc =>
        { loc with location := { latitude := lat, longitude := lng }
                   isOnline := isOnline.getD true }
    | none =>
        { location := { latitude := lat, longitude := lng }
          isOnline := isOnline.getD true, currentOrder := none }
  let locs : List (Nat × RiderLocation) :=
    match lookup s.riderLocs rid with
    | some _ => modifyEntry s.riderLocs rid (fun _ => newLoc)
    | none => s.riderLocs ++ [(rid, newLoc)]
  let evs : List Event :=
    match newLoc.currentOrder with
    | some oid =>
        [{ kind := .locationUpdate, orderId := oid, status := none
           timestamp := s.now, location := some (some lat, some lng)
           reason := none }]
    | none => []
  { s with riderLocs := locs, events := s.events ++ evs, now := s.now + 1 }

/-- `POST /toggle-online` of the rider route file. -/
def toggleOnline (s : SysState) (rid : Nat) : Except Err SysState :=
  match lookup s.riderLocs rid with
  | none => .error .notFound
  | some _ =>
      .ok { s with riderLocs := modifyEntry s.riderLocs rid
                     (fun l => { l with isOnline := !l.isOnline })
                   now := s.now + 1 }

/-- `PATCH /users/:userId/toggle-status` of the admin route file,
restricted to the rider slice of the `User` collection. -/
def toggleUserStatus (s : SysState) (uid : Nat) : Except Err SysState :=
  match lookup s.riders uid with
  | none => .error .notFound
  | some _ =>
      .ok { s with riders := modifyEntry s.riders uid
                     (fun r => { r with isActive := !r.isActive })
                   now := s.now + 1 }

/-- The empty deployment: no documents, no emissions, clock at zero. -/
def initState : SysState :=
  { orders := [], riders := [], riderLocs := [], events := [], now := 0 }

/-- One successful request of any mutating route. Creation steps take a
fresh Mongo id; the location update is performed by an authenticated
rider, so the rider document exists. Requests answered with an error
leave the state unchanged and therefore need no step. -/
inductive Step : SysState → SysState → Prop where
  | create_rider (s : SysState) (rid : Nat)
      (h : lookup s.riders rid = none) :
      Step s (createRider s rid)
  | create_order (s : SysState) (oid biz : Nat) (pa da : String)
      (h : lookup s.orders oid = none) :
      Step s (createOrder s oid biz pa da)
  | assign_order (s : SysState) (oid rid : Nat) (s' : SysState)
      (h : assign s oid rid = .ok s') :
      Step s s'
  | transition_order (s : SysState) (oid rid : Nat) (status : String)
      (notes : Option String) (lat lng : Option Int) (s' : SysState)
      (h : transition s oid rid status notes lat lng = .ok s') :
      Step s s'
  | fail_order (s : SysState) (oid rid : Nat) (reason : String) (s' : SysState)
      (h : failOrder s oid rid reason = .ok s') :
      Step s s'
  | update_location (s : SysState) (rid : Nat) (lat lng : Int)
      (onl : Option Bool) (r : Rider) (h : lookup s.riders rid = some r) :
      Step s (updateLocation s rid lat lng onl)
  | toggle_online (s : SysState) (rid : Nat) (s' : SysState)
      (h : toggleOnline s rid = .ok s') :
      Step s s'
  | toggle_user (s : SysState) (uid : Nat) (s' : SysState)
      (h : toggleUserStatus s uid = .ok s') :
      Step s s'

/-- States the deployment can reach from the empty one by a finite
sequence of successful requests. -/
inductive Reachable : SysState → Prop where
  | init : Reachable initState
  | step {s s' : SysState} : Reachable s → Step s s' → Reachable s'

/-- The state written by a successful `PATCH /:orderId/status`. -/
def transitionResult (s : SysState) (oid : Nat) (status : String)
    (notes : Option String) (lat lng : Option Int) (o : Order) : SysState :=
  { s with
      orders := modifyEntry s.orders oid (fun _ =>
        { o with status := status
                 timeline := o.timeline ++
                   [{ status := status, timestamp := s.now
                      notes := notes, location := entryLocation lat lng }]
                 actualDeliveryTime :=
                   if status == "delivered" then some s.now
                   else o.actualDeliveryTime })
      events := s.events ++
        [{ kind := .statusUpdate, orderId := oid, status := some status
           timestamp := s.now, location := some (lat, lng), reason := none }]
      now := s.now + 1 }

/-- The state written by a successful `POST /orders/:orderId/fail`. -/
def failResult (s : SysState) (oid rid : Nat) (reason : String)
    (o : Order) : SysState :=
  { s with
      orders := modifyEntry s.orders oid (fun _ =>
        { o with status := "failed", failureReason := some reason
                 timeline := o.timeline ++
                   [{ status := "failed", timestamp := s.now
                      notes := some ("Delivery failed: " ++ reason)
                      location := none }] })
      riderLocs := modifyEntry s.riderLocs rid
        (fun loc => { loc with currentOrder := none })
      events := s.events ++
        [{ kind := .statusUpdate, orderId := oid, status := some "failed"
           timestamp := s.now, location := none, reason := some reason }]
      now := s.now + 1 }

/-- The assign route's rider eligibility query: an active rider document
with the requested id exists. -/
def riderEligible (s : SysState) (rid : Nat) : Bool :=
  match lookup s.riders rid with
  | some r => r.isActive
  | none => false

/-- Extract the state of a successful route call (the default is never
used on the concrete calls below, which all succeed). -/
def okOr (e : Except Err SysState) (d : SysState) : SysState :=
  match e with
  | .ok s => s
  | .error _ => d

/-! A concrete run of the system: rider 1 is created, order 10 is
created by business 5 and assigned to rider 1, delivered, then order 11
is created and assigned to rider 1 as well, after which the delivered
order 10 is moved back to `picked_up`. These states feed the witnesses
and counterexamples below. -/

def st1 : SysState := createRider initState 1

def st2 : SysState := createOrder st1 10 5 "A" "B"

def st3 : SysState := okOr (assign st2 10 1) st2

def st4 : SysState := okOr (transition st3 10 1 "delivered" none none none) st3

def st5 : SysState := createOrder st4 11 5 "A" "B"

def st6 : SysState := okOr (assign st5 11 1) st5

def st7 : SysState := okOr (transition st6 10 1 "picked_up" none none none) st6

/-! The interleaving of two concurrent assign requests for rider 1:
both requests pass the check phase against the same shared state
`raceState` (two pending orders 10 and 11), then their write phases are
serialized one after the other. -/

def raceState : SysState := createOrder st2 11 5 "C" "D"

/-- A placeholder document for `Option.getD`; never the result of the
concrete lookups below, which all succeed. -/
def dummyOrder : Order :=
  { business := 0, rider := none, status := "", pickupAddress := ""
    dropoffAddress := "", timeline := [], failureReason := none
    actualDeliveryTime := none }

def raceOrder10 : Order := (lookup raceState.orders 10).getD dummyOrder

def raceOrder11 : Order := (lookup raceState.orders 11).getD dummyOrder

/-- Both write phases applied after both check phases read `raceState`. -/
def raceFinal : SysState :=
  assignCommit (assignCommit raceState 10 1 raceOrder10) 11 1 raceOrder11

/-- A placeholder location record for `Option.getD`; never the result of
the concrete lookups below, which all succeed. -/
def dummyLoc : RiderLocation :=
  { location := { latitude := 0, longitude := 0 }
    isOnline := false, currentOrder := none }

/-- The pending order 10 as stored in `st2`. -/
def pendingOrder10 : Order := (lookup st2.orders 10).getD dummyOrder

/-- Rider 1's location record in `st3` (current order 10). -/
def st3Loc : RiderLocation := (lookup st3.riderLocs 1).getD dummyLoc

/-- State after moving the assigned order 10 to `picked_up` with the
coordinate pair `(0, 1)` supplied. -/
def c6After : SysState :=
  okOr (transition st3 10 1 "picked_up" none (some 0) (some 1)) st3

def c6Order : Order := (lookup c6After.orders 10).getD dummyOrder

/-- State after `POST /orders/10/fail` from `st3`. -/
def c5Fail : SysState := okOr (failOrder st3 10 1 "customer unreachable") st3

/-- State after the equivalent rider status transition from `st3`. -/
def c5Trans : SysState :=
  okOr (transition st3 10 1 "failed"
    (some "Delivery failed: customer unreachable") none none) st3

/-- A delivered order still bound to rider 2, used to exercise assign's
lack of a status precondition. -/
def deliveredOrder : Order :=
  { business := 5, rider := some 2, status := "delivered"
    pickupAddress := "A", dropoffAddress := "B"
    timeline := [{ status := "pending", timestamp := 0
                   notes := some "Order created", location := none },
                 { status := "delivered", timestamp := 4
                   notes := none, location := none }]
    failureReason := none, actualDeliveryTime := some 4 }

/-- Order 11 as stored in `st6` (assigned to rider 1). -/
def st6Order11 : Order := (lookup st6.orders 11).getD dummyOrder

/-- Two active riders, no location bindings, and one delivered order
owned by rider 2. -/
def w9State : SysState :=
  { orders := [(10, deliveredOrder)]
    riders := [(1, { isActive := true }), (2, { isActive := true })]
    riderLocs := [(1, dummyLoc), (2, dummyLoc)]
    events := [], now := 9 }

/-- Consistency conditions that hold in every reachable state: Mongo
ids are unique per collection, rider users and their location records
exist together, and every order's timeline carries timestamps below
the clock, stays sorted, and ends with the order's current status. -/
structure Inv (s : SysState) : Prop where
  ordersNodup : (s.orders.map Prod.fst).Nodup
  ridersNodup : (s.riders.map Prod.fst).Nodup
  locsNodup : (s.riderLocs.map Prod.fst).Nodup
  riderHasLoc : ∀ rid r, lookup s.riders rid = some r →
    ∃ loc, lookup s.riderLocs rid = some loc
  locHasRider : ∀ rid loc, lookup s.riderLocs rid = some loc →
    ∃ r, lookup s.riders rid = some r
  stampsLt : ∀ oid o, lookup s.orders oid = some o →
    ∀ e ∈ o.timeline, e.timestamp < s.now
  lastStatus : ∀ oid o, lookup s.orders oid = some o →
    (o.timeline.getLast?).map TimelineEntry.status = some o.status
  stampsMono : ∀ oid o, lookup s.orders oid = some o →
    List.Chain' (fun a b => a.timestamp ≤ b.timestamp) o.timeline

/-! ## Association-list lemmas -/

theorem lookup_nil (k : Nat) : lookup ([] : List (Nat × α)) k = none := rfl

theorem lookup_cons (p : Nat × α) (l : List (Nat × α)) (k : Nat) :
    lookup (p :: l) k = if p.1 == k then some p.2 else lookup l k := by
  by_cases h : p.1 == k <;> simp [lookup, List.find?_cons, h]

theorem lookup_append (l₁ l₂ : List (Nat × α)) (k : Nat) :
    lookup (l₁ ++ l₂) k = (lookup l₁ k).orElse (fun _ => lookup l₂ k) := by
  induction l₁ with
  | nil => simp [lookup_nil, lookup, Option.orElse]
  | cons p t ih =>
      by_cases h : p.1 == k <;>
        simp [List.cons_append, lookup_cons, h, ih, Option.orElse]

theorem lookup_append_of_some {l₁ : List (Nat × α)} {k : Nat} {v : α}
    (l₂ : List (Nat × α)) (h : lookup l₁ k = some v) :
    lookup (l₁ ++ l₂) k = some v := by
  simp [lookup_append, h, Option.orElse]

theorem lookup_append_of_none {l₁ : List (Nat × α)} {k : Nat}
    (l₂ : List (Nat × α)) (h : lookup l₁ k = none) :
    lookup (l₁ ++ l₂) k = lookup l₂ k := by
  simp [lookup_append, h, Option.orElse]

theorem modifyEntry_cons_of_eq {p : Nat × α} {k : Nat} (t : List (Nat × α))
    (f : α → α) (h : p.1 = k) :
    modifyEntry (p :: t) k f = (p.1, f p.2) :: modifyEntry t k f := by
  simp [modifyEntry, h]

theorem modifyEntry_cons_of_ne {p : Nat × α} {k : Nat} (t : List (Nat × α))
    (f : α → α) (h : ¬ p.1 = k) :
    modifyEntry (p :: t) k f = p :: modifyEntry t k f := by
  simp [modifyEntry, h]

theorem lookup_modifyEntry (l : List (Nat × α)) (k : Nat) (f : α → α)
    (k' : Nat) :
    lookup (modifyEntry l k f) k' =
      if k' = k then (lookup l k').map f else lookup l k' := by
  induction l with
  | nil => by_cases h : k' = k <;> simp [modifyEntry, lookup_nil, h]
  | cons p t ih =>
      by_cases hpk : p.1 = k
      · rw [modifyEntry_cons_of_eq t f hpk, lookup_cons, lookup_cons]
        by_cases hk' : k' = k
        · subst hk'
          simp [hpk]
        · have h1 : (p.1 == k') = false := by
            simp only [beq_eq_false_iff_ne, ne_eq]
            exact fun h => hk' (h ▸ hpk)
          simp [h1, ih, hk']
      · rw [modifyEntry_cons_of_ne t f hpk, lookup_cons, lookup_cons]
        by_cases hpk' : p.1 = k'
        · have hkk' : ¬ k' = k := fun h => hpk (hpk' ▸ h)
          have h1 : (p.1 == k') = true := by simp [hpk']
          simp [h1, hkk']
        · have h1 : (p.1 == k') = false := by simp [hpk']
          simp [h1, ih]

theorem lookup_modifyEntry_self {l : List (Nat × α)} {k : Nat} {v : α}
    (f : α → α) (h : lookup l k = some v) :
    lookup (modifyEntry l k f) k = some (f v) := by
  simp [lookup_modifyEntry, h]

theorem lookup_modifyEntry_ne {l : List (Nat × α)} {k k' : Nat}
    (f : α → α) (h : k' ≠ k) :
    lookup (modifyEntry l k f) k' = lookup l k' := by
  simp [lookup_modifyEntry, h]

theorem map_fst_modifyEntry (l : List (Nat × α)) (k : Nat) (f : α → α) :
    (modifyEntry l k f).map Prod.fst = l.map Prod.fst := by
  induction l with
  | nil => rfl
  | cons p t ih =>
      by_cases h : p.1 = k
      · rw [modifyEntry_cons_of_eq t f h, List.map_cons, List.map_cons, ih]
      · rw [modifyEntry_cons_of_ne t f h, List.map_cons, List.map_cons, ih]

theorem lookup_eq_none_iff (l : List (Nat × α)) (k : Nat) :
    lookup l k = none ↔ k ∉ l.map Prod.fst := by
  induction l with
  | nil => simp [lookup_nil]
  | cons p t ih =>
      by_cases h : p.1 = k
      · have hb : (p.1 == k) = true := by simp [h]
        simp [lookup_cons, hb, h]
      · have hb : (p.1 == k) = false := by simp [h]
        have hne : ¬ k = p.1 := fun hk => h hk.symm
        simp [lookup_cons, hb, ih, hne]

theorem lookup_mem {l : List (Nat × α)} {k : Nat} {v : α}
    (h : lookup l k = some v) : (k, v) ∈ l := by
  simp only [lookup, Option.map_eq_some'] at h
  obtain ⟨p, hp, hv⟩ := h
  have hmem := List.mem_of_find?_eq_some hp
  have hpk := List.find?_some hp
  obtain ⟨pk, pv⟩ := p
  simp only [beq_iff_eq] at hpk
  subst hpk
  have hv' : pv = v := hv
  subst hv'
  exact hmem

theorem modifyEntry_of_not_mem {l : List (Nat × α)} {k : Nat} (f : α → α)
    (h : k ∉ l.map Prod.fst) : modifyEntry l k f = l := by
  induction l with
  | nil => rfl
  | cons p t ih =>
      simp only [List.map_cons, List.mem_cons, not_or] at h
      have hne : ¬ p.1 = k := fun hk => h.1 hk.symm
      rw [modifyEntry_cons_of_ne t f hne, ih h.2]

theorem lookup_singleton (k : Nat) (v : α) (k' : Nat) :
    lookup [(k, v)] k' = if k = k' then some v else none := by
  rw [lookup_cons]
  by_cases h : k = k' <;> simp [h, lookup_nil]

theorem lookup_isSome_of_mem {l : List (Nat × α)} {k : Nat}
    (h : k ∈ l.map Prod.fst) : ∃ v, lookup l k = some v := by
  rcases hv : lookup l k with _ | v
  · exact absurd ((lookup_eq_none_iff l k).mp hv) (not_not_intro h)
  · exact ⟨v, rfl⟩

/-! ## Inversion of the fallible routes

Each lemma recovers, from a successful response, the documents the
route read and the exact state it wrote. -/

theorem assign_ok_inv {s : SysState} {oid rid : Nat} {s' : SysState}
    (h : assign s oid rid = .ok s') :
    ∃ o r, lookup s.orders oid = some o ∧ lookup s.riders rid = some r ∧
      r.isActive = true ∧ hasActiveOrder s rid = false ∧
      s' = assignCommit s oid rid o := by
  unfold assign assignCheck at h
  split at h
  · simp [Except.map] at h
  · next o ho =>
      split at h
      · simp [Except.map] at h
      · next r hr =>
          split at h
          · simp [Except.map] at h
          · next hact =>
              split at h
              · simp [Except.map] at h
              · next hbusy =>
                  simp only [Except.map, Except.ok.injEq] at h
                  refine ⟨o, r, ho, hr, ?_, ?_, h.symm⟩
                  · simpa using hact
                  · simpa using hbusy

theorem assign_error_of_no_order {s : SysState} {oid rid : Nat}
    (h : lookup s.orders oid = none) :
    assign s oid rid = .error .notFound := by
  unfold assign assignCheck
  rw [h]
  rfl

theorem transition_ok_inv {s : SysState} {oid rid : Nat} {status : String}
    {notes : Option String} {lat lng : Option Int} {s' : SysState}
    (h : transition s oid rid status notes lat lng = .ok s') :
    ∃ o, lookup s.orders oid = some o ∧ o.rider = some rid ∧
      s' = transitionResult s oid status notes lat lng o := by
  unfold transition at h
  split at h
  · simp at h
  · next o ho =>
      split at h
      · next hb =>
          simp only [Except.ok.injEq] at h
          exact ⟨o, ho, by simpa using hb, h.symm⟩
      · simp at h

theorem transition_error_notFound {s : SysState} {oid rid : Nat}
    {status : String} {notes : Option String} {lat lng : Option Int} {e : Err}
    (h : transition s oid rid status notes lat lng = .error e) :
    e = .notFound := by
  unfold transition at h
  split at h
  · exact (Except.error.inj h).symm
  · split at h
    · simp at h
    · exact (Except.error.inj h).symm

theorem transition_eq_ok {s : SysState} {oid rid : Nat} {status : String}
    {notes : Option String} {lat lng : Option Int} {o : Order}
    (ho : lookup s.orders oid = some o) (hr : o.rider = some rid) :
    transition s oid rid status notes lat lng =
      .ok (transitionResult s oid status notes lat lng o) := by
  rcases h2 : transition s oid rid status notes lat lng with e | s2
  · exfalso
    unfold transition at h2
    split at h2
    · next hnone => rw [ho] at hnone; cases hnone
    · next o2 ho2 =>
        split at h2
        · cases h2
        · next hb =>
            rw [ho] at ho2
            cases ho2
            exact hb (by simp [hr])
  · obtain ⟨o2, ho2, _, hres⟩ := transition_ok_inv h2
    rw [ho] at ho2
    cases ho2
    rw [hres]

theorem transition_error_iff {s : SysState} {oid rid : Nat} {status : String}
    {notes : Option String} {lat lng : Option Int} :
    transition s oid rid status notes lat lng = .error .notFound ↔
      lookup s.orders oid = none ∨
        ∃ o, lookup s.orders oid = some o ∧ o.rider ≠ some rid := by
  constructor
  · intro h
    rcases ho : lookup s.orders oid with _ | o
    · exact Or.inl rfl
    · refine Or.inr ⟨o, rfl, ?_⟩
      intro hr
      rw [transition_eq_ok ho hr] at h
      simp at h
  · intro h
    rcases h2 : transition s oid rid status notes lat lng with e | s2
    · rw [transition_error_notFound h2]
    · exfalso
      obtain ⟨o2, ho2, hr2, _⟩ := transition_ok_inv h2
      rcases h with h | ⟨o, ho, hr⟩
      · rw [h] at ho2; cases ho2
      · rw [ho] at ho2
        cases ho2
        exact hr hr2

theorem failOrder_ok_inv {s : SysState} {oid rid : Nat} {reason : String}
    {s' : SysState} (h : failOrder s oid rid reason = .ok s') :
    ∃ o, lookup s.orders oid = some o ∧ o.rider = some rid ∧
      s' = failResult s oid rid reason o := by
  unfold failOrder at h
  split at h
  · simp at h
  · next o ho =>
      split at h
      · next hb =>
          simp only [Except.ok.injEq] at h
          exact ⟨o, ho, by simpa using hb, h.symm⟩
      · simp at h

theorem failOrder_eq_ok {s : SysState} {oid rid : Nat} {reason : String}
    {o : Order} (ho : lookup s.orders oid = some o) (hr : o.rider = some rid) :
    failOrder s oid rid reason = .ok (failResult s oid rid reason o) := by
  rcases h2 : failOrder s oid rid reason with e | s2
  · exfalso
    unfold failOrder at h2
    split at h2
    · next hnone => rw [ho] at hnone; cases hnone
    · next o2 ho2 =>
        split at h2
        · cases h2
        · next hb =>
            rw [ho] at ho2
            cases ho2
            exact hb (by simp [hr])
  · obtain ⟨o2, ho2, _, hres⟩ := failOrder_ok_inv h2
    rw [ho] at ho2
    cases ho2
    rw [hres]

theorem toggleOnline_ok_inv {s : SysState} {rid : Nat} {s' : SysState}
    (h : toggleOnline s rid = .ok s') :
    ∃ loc, lookup s.riderLocs rid = some loc ∧
      s' = { s with riderLocs := modifyEntry s.riderLocs rid
                      (fun l => { l with isOnline := !l.isOnline })
                    now := s.now + 1 } := by
  unfold toggleOnline at h
  split at h
  · simp at h
  · next loc hl =>
      simp only [Except.ok.injEq] at h
      exact ⟨loc, hl, h.symm⟩

theorem toggleUserStatus_ok_inv {s : SysState} {uid : Nat} {s' : SysState}
    (h : toggleUserStatus s uid = .ok s') :
    ∃ r, lookup s.riders uid = some r ∧
      s' = { s with riders := modifyEntry s.riders uid
                      (fun r => { r with isActive := !r.isActive })
                    now := s.now + 1 } := by
  unfold toggleUserStatus at h
  split at h
  · simp at h
  · next r hr =>
      simp only [Except.ok.injEq] at h
      exact ⟨r, hr, h.symm⟩

/-! ## Invariant preservation -/

theorem nodup_append_fresh {l : List (Nat × α)} {k : Nat} {v : α}
    (hnd : (l.map Prod.fst).Nodup) (h : lookup l k = none) :
    ((l ++ [(k, v)]).map Prod.fst).Nodup := by
  rw [List.map_append]
  simp only [List.map_cons, List.map_nil]
  refine List.nodup_append.mpr ⟨hnd, List.nodup_singleton k, fun a ha hk => ?_⟩
  have ha' : a = k := by simpa using hk
  subst ha'
  exact (lookup_eq_none_iff l a).mp h ha

theorem lookup_modify_isSome {l : List (Nat × α)} {k' k : Nat} {f : α → α}
    (h : ∃ v, lookup l k' = some v) :
    ∃ v, lookup (modifyEntry l k f) k' = some v := by
  obtain ⟨v, hv⟩ := h
  rw [lookup_modifyEntry]
  by_cases he : k' = k
  · rw [if_pos he, hv]
    exact ⟨f v, rfl⟩
  · rw [if_neg he]
    exact ⟨v, hv⟩

theorem exists_lookup_of_modify {l : List (Nat × α)} {k' k : Nat} {f : α → α}
    (h : ∃ v, lookup (modifyEntry l k f) k' = some v) :
    ∃ v, lookup l k' = some v := by
  obtain ⟨v, hv⟩ := h
  rw [lookup_modifyEntry] at hv
  by_cases he : k' = k
  · rw [if_pos he] at hv
    rcases hw : lookup l k' with _ | w
    · rw [hw] at hv
      cases hv
    · exact ⟨w, rfl⟩
  · rw [if_neg he] at hv
    exact ⟨v, hv⟩

theorem lookup_modify_const_cases {l : List (Nat × α)} {k : Nat} {v w : α}
    {k' : Nat} {u : α} (hk : lookup l k = some v)
    (h : lookup (modifyEntry l k (fun _ => w)) k' = some u) :
    (k' = k ∧ u = w) ∨ (k' ≠ k ∧ lookup l k' = some u) := by
  rw [lookup_modifyEntry] at h
  by_cases he : k' = k
  · subst he
    rw [if_pos rfl, hk] at h
    simp only [Option.map_some', Option.some.injEq] at h
    exact Or.inl ⟨rfl, h.symm⟩
  · rw [if_neg he] at h
    exact Or.inr ⟨he, h⟩

/-- Appending an entry stamped with the current clock keeps a reachable
order's timeline sorted. -/
theorem chain_append_now {s : SysState} (hs : Inv s) {oid : Nat} {o : Order}
    (ho : lookup s.orders oid = some o) (e : TimelineEntry)
    (he : e.timestamp = s.now) :
    List.Chain' (fun a b => a.timestamp ≤ b.timestamp) (o.timeline ++ [e]) := by
  rw [List.chain'_append]
  refine ⟨hs.stampsMono oid o ho, List.chain'_singleton e, ?_⟩
  intro x hx y hy
  have hy' : e = y := by simpa using hy
  subst hy'
  have hlt := hs.stampsLt oid o ho x (List.mem_of_mem_getLast? hx)
  omega

theorem inv_init : Inv initState := by
  refine ⟨?_, ?_, ?_, ?_, ?_, ?_, ?_, ?_⟩ <;> simp [initState, lookup_nil]

theorem inv_createRider {s : SysState} (hs : Inv s) {rid : Nat}
    (h : lookup s.riders rid = none) : Inv (createRider s rid) := by
  have hlocnone : lookup s.riderLocs rid = none := by
    rcases hl : lookup s.riderLocs rid with _ | loc
    · rfl
    · obtain ⟨r, hr⟩ := hs.locHasRider rid loc hl
      rw [h] at hr
      cases hr
  refine ⟨?_, ?_, ?_, ?_, ?_, ?_, ?_, ?_⟩
  · simpa [createRider] using hs.ordersNodup
  · simp only [createRider]
    exact nodup_append_fresh hs.ridersNodup h
  · simp only [createRider]
    exact nodup_append_fresh hs.locsNodup hlocnone
  · intro rid' r hr
    simp only [createRider] at hr ⊢
    rcases hr' : lookup s.riders rid' with _ | r0
    · rw [lookup_append_of_none _ hr', lookup_singleton] at hr
      by_cases he : rid = rid'
      · subst he
        refine ⟨{ location := { latitude := 0, longitude := 0 }
                  isOnline := false, currentOrder := none }, ?_⟩
        rw [lookup_append_of_none _ hlocnone, lookup_singleton, if_pos rfl]
      · rw [if_neg he] at hr
        cases hr
    · obtain ⟨loc, hloc⟩ := hs.riderHasLoc rid' r0 hr'
      exact ⟨loc, lookup_append_of_some _ hloc⟩
  · intro rid' loc hloc
    simp only [createRider] at hloc ⊢
    rcases hl' : lookup s.riderLocs rid' with _ | loc0
    · rw [lookup_append_of_none _ hl', lookup_singleton] at hloc
      by_cases he : rid = rid'
      · subst he
        refine ⟨{ isActive := true }, ?_⟩
        rw [lookup_append_of_none _ h, lookup_singleton, if_pos rfl]
      · rw [if_neg he] at hloc
        cases hloc
    · obtain ⟨r0, hr0⟩ := hs.locHasRider rid' loc0 hl'
      exact ⟨r0, lookup_append_of_some _ hr0⟩
  · intro oid o ho e he
    simp only [createRider] at ho ⊢
    exact Nat.lt_succ_of_lt (hs.stampsLt oid o ho e he)
  · intro oid o ho
    simp only [createRider] at ho
    exact hs.lastStatus oid o ho
  · intro oid o ho
    simp only [createRider] at ho
    exact hs.stampsMono oid o ho

theorem inv_createOrder {s : SysState} (hs : Inv s) {oid biz : Nat}
    {pa da : String} (h : lookup s.orders oid = none) :
    Inv (createOrder s oid biz pa da) := by
  refine ⟨?_, ?_, ?_, ?_, ?_, ?_, ?_, ?_⟩
  · simp only [createOrder]
    exact nodup_append_fresh hs.ordersNodup h
  · simpa [createOrder] using hs.ridersNodup
  · simpa [createOrder] using hs.locsNodup
  · intro rid r hr
    simp only [createOrder] at hr ⊢
    exact hs.riderHasLoc rid r hr
  · intro rid loc hl
    simp only [createOrder] at hl ⊢
    exact hs.locHasRider rid loc hl
  · intro oid' o ho e he
    simp only [createOrder] at ho ⊢
    rcases ho' : lookup s.orders oid' with _ | o0
    · rw [lookup_append_of_none _ ho', lookup_singleton] at ho
      by_cases heq : oid = oid'
      · rw [if_pos heq] at ho
        cases ho
        have he' := List.mem_singleton.mp he
        subst he'
        exact Nat.lt_succ_self _
      · rw [if_neg heq] at ho
        cases ho
    · rw [lookup_append_of_some _ ho'] at ho
      cases ho
      exact Nat.lt_succ_of_lt (hs.stampsLt oid' o ho' e he)
  · intro oid' o ho
    simp only [createOrder] at ho
    rcases ho' : lookup s.orders oid' with _ | o0
    · rw [lookup_append_of_none _ ho', lookup_singleton] at ho
      by_cases heq : oid = oid'
      · rw [if_pos heq] at ho
        cases ho
        simp
      · rw [if_neg heq] at ho
        cases ho
    · rw [lookup_append_of_some _ ho'] at ho
      cases ho
      exact hs.lastStatus oid' o ho'
  · intro oid' o ho
    simp only [createOrder] at ho
    rcases ho' : lookup s.orders oid' with _ | o0
    · rw [lookup_append_of_none _ ho', lookup_singleton] at ho
      by_cases heq : oid = oid'
      · rw [if_pos heq] at ho
        cases ho
        exact List.chain'_singleton _
      · rw [if_neg heq] at ho
        cases ho
    · rw [lookup_append_of_some _ ho'] at ho
      cases ho
      exact hs.stampsMono oid' o ho'

theorem inv_assign {s : SysState} (hs : Inv s) {oid rid : Nat}
    {s' : SysState} (h : assign s oid rid = .ok s') : Inv s' := by
  obtain ⟨o, r, ho, hr, hact, hbusy, rfl⟩ := assign_ok_inv h
  refine ⟨?_, ?_, ?_, ?_, ?_, ?_, ?_, ?_⟩
  · simpa [assignCommit, map_fst_modifyEntry] using hs.ordersNodup
  · simpa [assignCommit] using hs.ridersNodup
  · simpa [assignCommit, map_fst_modifyEntry] using hs.locsNodup
  · intro rid' r' hr'
    simp only [assignCommit] at hr' ⊢
    exact lookup_modify_isSome (hs.riderHasLoc rid' r' hr')
  · intro rid' loc' hl'
    simp only [assignCommit] at hl' ⊢
    obtain ⟨loc0, hl0⟩ := exists_lookup_of_modify ⟨loc', hl'⟩
    exact hs.locHasRider rid' loc0 hl0
  · intro oid' o2 h2 x hx
    simp only [assignCommit] at h2 ⊢
    rcases lookup_modify_const_cases ho h2 with ⟨heq, hu⟩ | ⟨hne, h2'⟩
    · subst hu
      rcases List.mem_append.mp hx with hx | hx
      · exact Nat.lt_succ_of_lt (hs.stampsLt oid o ho x hx)
      · have hx' : x = { status := "assigned", timestamp := s.now
                         notes := some "Order assigned to rider"
                         location := none } := List.mem_singleton.mp hx
        subst hx'
        exact Nat.lt_succ_self _
    · exact Nat.lt_succ_of_lt (hs.stampsLt oid' o2 h2' x hx)
  · intro oid' o2 h2
    simp only [assignCommit] at h2
    rcases lookup_modify_const_cases ho h2 with ⟨heq, hu⟩ | ⟨hne, h2'⟩
    · subst hu
      simp [List.getLast?_concat]
    · exact hs.lastStatus oid' o2 h2'
  · intro oid' o2 h2
    simp only [assignCommit] at h2
    rcases lookup_modify_const_cases ho h2 with ⟨heq, hu⟩ | ⟨hne, h2'⟩
    · subst hu
      exact chain_append_now hs ho _ rfl
    · exact hs.stampsMono oid' o2 h2'

theorem inv_transition {s : SysState} (hs : Inv s) {oid rid : Nat}
    {status : String} {notes : Option String} {lat lng : Option Int}
    {s' : SysState} (h : transition s oid rid status notes lat lng = .ok s') :
    Inv s' := by
  obtain ⟨o, ho, hr, rfl⟩ := transition_ok_inv h
  refine ⟨?_, ?_, ?_, ?_, ?_, ?_, ?_, ?_⟩
  · simpa [transitionResult, map_fst_modifyEntry] using hs.ordersNodup
  · simpa [transitionResult] using hs.ridersNodup
  · simpa [transitionResult] using hs.locsNodup
  · intro rid' r' hr'
    simp only [transitionResult] at hr' ⊢
    exact hs.riderHasLoc rid' r' hr'
  · intro rid' loc' hl'
    simp only [transitionResult] at hl' ⊢
    exact hs.locHasRider rid' loc' hl'
  · intro oid' o2 h2 x hx
    simp only [transitionResult] at h2 ⊢
    rcases lookup_modify_const_cases ho h2 with ⟨heq, hu⟩ | ⟨hne, h2'⟩
    · subst hu
      rcases List.mem_append.mp hx with hx | hx
      · exact Nat.lt_succ_of_lt (hs.stampsLt oid o ho x hx)
      · have hx' : x = { status := status, timestamp := s.now
                         notes := notes
                         location := entryLocation lat lng } :=
          List.mem_singleton.mp hx
        subst hx'
        exact Nat.lt_succ_self _
    · exact Nat.lt_succ_of_lt (hs.stampsLt oid' o2 h2' x hx)
  · intro oid' o2 h2
    simp only [transitionResult] at h2
    rcases lookup_modify_const_cases ho h2 with ⟨heq, hu⟩ | ⟨hne, h2'⟩
    · subst hu
      simp [List.getLast?_concat]
    · exact hs.lastStatus oid' o2 h2'
  · intro oid' o2 h2
    simp only [transitionResult] at h2
    rcases lookup_modify_const_cases ho h2 with ⟨heq, hu⟩ | ⟨hne, h2'⟩
    · subst hu
      exact chain_append_now hs ho _ rfl
    · exact hs.stampsMono oid' o2 h2'

theorem inv_fail {s : SysState} (hs : Inv s) {oid rid : Nat}
    {reason : String} {s' : SysState}
    (h : failOrder s oid rid reason = .ok s') : Inv s' := by
  obtain ⟨o, ho, hr, rfl⟩ := failOrder_ok_inv h
  refine ⟨?_, ?_, ?_, ?_, ?_, ?_, ?_, ?_⟩
  · simpa [failResult, map_fst_modifyEntry] using hs.ordersNodup
  · simpa [failResult] using hs.ridersNodup
  · simpa [failResult, map_fst_modifyEntry] using hs.locsNodup
  · intro rid' r' hr'
    simp only [failResult] at hr' ⊢
    exact lookup_modify_isSome (hs.riderHasLoc rid' r' hr')
  · intro rid' loc' hl'
    simp only [failResult] at hl' ⊢
    obtain ⟨loc0, hl0⟩ := exists_lookup_of_modify ⟨loc', hl'⟩
    exact hs.locHasRider rid' loc0 hl0
  · intro oid' o2 h2 x hx
    simp only [failResult] at h2 ⊢
    rcases lookup_modify_const_cases ho h2 with ⟨heq, hu⟩ | ⟨hne, h2'⟩
    · subst hu
      rcases List.mem_append.mp hx with hx | hx
      · exact Nat.lt_succ_of_lt (hs.stampsLt oid o ho x hx)
      · have hx' : x = { status := "failed", timestamp := s.now
                         notes := some ("Delivery failed: " ++ reason)
                         location := none } := List.mem_singleton.mp hx
        subst hx'
        exact Nat.lt_succ_self _
    · exact Nat.lt_succ_of_lt (hs.stampsLt oid' o2 h2' x hx)
  · intro oid' o2 h2
    simp only [failResult] at h2
    rcases lookup_modify_const_cases ho h2 with ⟨heq, hu⟩ | ⟨hne, h2'⟩
    · subst hu
      simp [List.getLast?_concat]
    · exact hs.lastStatus oid' o2 h2'
  · intro oid' o2 h2
    simp only [failResult] at h2
    rcases lookup_modify_const_cases ho h2 with ⟨heq, hu⟩ | ⟨hne, h2'⟩
    · subst hu
      exact chain_append_now hs ho _ rfl
    · exact hs.stampsMono oid' o2 h2'

theorem inv_updateLocation {s : SysState} (hs : Inv s) {rid : Nat}
    {lat lng : Int} {onl : Option Bool} {r : Rider}
    (hr : lookup s.riders rid = some r) :
    Inv (updateLocation s rid lat lng onl) := by
  obtain ⟨loc, hloc⟩ := hs.riderHasLoc rid r hr
  refine ⟨?_, ?_, ?_, ?_, ?_, ?_, ?_, ?_⟩
  · simpa [updateLocation, hloc] using hs.ordersNodup
  · simpa [updateLocation, hloc] using hs.ridersNodup
  · simpa [updateLocation, hloc, map_fst_modifyEntry] using hs.locsNodup
  · intro rid' r' hr'
    simp only [updateLocation, hloc] at hr' ⊢
    exact lookup_modify_isSome (hs.riderHasLoc rid' r' hr')
  · intro rid' loc' hl'
    simp only [updateLocation, hloc] at hl' ⊢
    obtain ⟨loc0, hl0⟩ := exists_lookup_of_modify ⟨loc', hl'⟩
    exact hs.locHasRider rid' loc0 hl0
  · intro oid' o2 h2 x hx
    simp only [updateLocation, hloc] at h2 ⊢
    exact Nat.lt_succ_of_lt (hs.stampsLt oid' o2 h2 x hx)
  · intro oid' o2 h2
    simp only [updateLocation, hloc] at h2
    exact hs.lastStatus oid' o2 h2
  · intro oid' o2 h2
    simp only [updateLocation, hloc] at h2
    exact hs.stampsMono oid' o2 h2

theorem inv_toggleOnline {s : SysState} (hs : Inv s) {rid : Nat}
    {s' : SysState} (h : toggleOnline s rid = .ok s') : Inv s' := by
  obtain ⟨loc, hloc, rfl⟩ := toggleOnline_ok_inv h
  refine ⟨?_, ?_, ?_, ?_, ?_, ?_, ?_, ?_⟩
  · simpa using hs.ordersNodup
  · simpa using hs.ridersNodup
  · simpa [map_fst_modifyEntry] using hs.locsNodup
  · intro rid' r' hr'
    show ∃ loc2, lookup (modifyEntry s.riderLocs rid
      (fun l => { l with isOnline := !l.isOnline })) rid' = some loc2
    exact lookup_modify_isSome (hs.riderHasLoc rid' r' hr')
  · intro rid' loc' hl'
    have hl2 : lookup (modifyEntry s.riderLocs rid
        (fun l => { l with isOnline := !l.isOnline })) rid' = some loc' := hl'
    obtain ⟨loc0, hl0⟩ := exists_lookup_of_modify ⟨loc', hl2⟩
    exact hs.locHasRider rid' loc0 hl0
  · intro oid' o2 h2 x hx
    exact Nat.lt_succ_of_lt (hs.stampsLt oid' o2 h2 x hx)
  · intro oid' o2 h2
    exact hs.lastStatus oid' o2 h2
  · intro oid' o2 h2
    exact hs.stampsMono oid' o2 h2

theorem inv_toggleUserStatus {s : SysState} (hs : Inv s) {uid : Nat}
    {s' : SysState} (h : toggleUserStatus s uid = .ok s') : Inv s' := by
  obtain ⟨r, hr, rfl⟩ := toggleUserStatus_ok_inv h
  refine ⟨?_, ?_, ?_, ?_, ?_, ?_, ?_, ?_⟩
  · simpa using hs.ordersNodup
  · simpa [map_fst_modifyEntry] using hs.ridersNodup
  · simpa using hs.locsNodup
  · intro rid' r' hr'
    have hr2 : lookup (modifyEntry s.riders uid
        (fun r => { r with isActive := !r.isActive })) rid' = some r' := hr'
    obtain ⟨r0, hr0⟩ := exists_lookup_of_modify ⟨r', hr2⟩
    exact hs.riderHasLoc rid' r0 hr0
  · intro rid' loc' hl'
    show ∃ r2, lookup (modifyEntry s.riders uid
      (fun r => { r with isActive := !r.isActive })) rid' = some r2
    exact lookup_modify_isSome (hs.locHasRider rid' loc' hl')
  · intro oid' o2 h2 x hx
    exact Nat.lt_succ_of_lt (hs.stampsLt oid' o2 h2 x hx)
  · intro oid' o2 h2
    exact hs.lastStatus oid' o2 h2
  · intro oid' o2 h2
    exact hs.stampsMono oid' o2 h2

theorem inv_step {s s' : SysState} (hs : Inv s) (h : Step s s') : Inv s' := by
  cases h with
  | create_rider rid hfresh => exact inv_createRider hs hfresh
  | create_order oid biz pa da hfresh => exact inv_createOrder hs hfresh
  | assign_order oid rid s2 hok => exact inv_assign hs hok
  | transition_order oid rid status notes lat lng s2 hok =>
      exact inv_transition hs hok
  | fail_order oid rid reason s2 hok => exact inv_fail hs hok
  | update_location rid lat lng onl r hrid => exact inv_updateLocation hs hrid
  | toggle_online rid s2 hok => exact inv_toggleOnline hs hok
  | toggle_user uid s2 hok => exact inv_toggleUserStatus hs hok

/-- Every reachable state satisfies the consistency bundle `Inv`. -/
theorem reachable_inv {s : SysState} (h : Reachable s) : Inv s := by
  induction h with
  | init => exact inv_init
  | step _ hstep ih => exact inv_step ih hstep

/-! ## The concrete run, step by step -/

theorem reach_st1 : Reachable st1 :=
  Reachable.step Reachable.init (Step.create_rider _ 1 (by decide))

theorem reach_st2 : Reachable st2 :=
  Reachable.step reach_st1 (Step.create_order _ 10 5 "A" "B" (by decide))

theorem assign_st2 : assign st2 10 1 = .ok st3 := rfl

theorem reach_st3 : Reachable st3 :=
  Reachable.step reach_st2 (Step.assign_order _ 10 1 st3 assign_st2)

theorem transition_st3 :
    transition st3 10 1 "delivered" none none none = .ok st4 := rfl

theorem reach_st4 : Reachable st4 :=
  Reachable.step reach_st3
    (Step.transition_order _ 10 1 "delivered" none none none st4 transition_st3)

theorem reach_st5 : Reachable st5 :=
  Reachable.step reach_st4 (Step.create_order _ 11 5 "A" "B" (by decide))

theorem assign_st5 : assign st5 11 1 = .ok st6 := rfl

theorem reach_st6 : Reachable st6 :=
  Reachable.step reach_st5 (Step.assign_order _ 11 1 st6 assign_st5)

theorem transition_st6 :
    transition st6 10 1 "picked_up" none none none = .ok st7 := rfl

theorem reach_st7 : Reachable st7 :=
  Reachable.step reach_st6
    (Step.transition_order _ 10 1 "picked_up" none none none st7 transition_st6)

/-! ## Counting active orders -/

theorem length_filter_map_le {g : α → α} {p : α → Bool} :
    ∀ l : List α, (∀ x ∈ l, p (g x) = true → p x = true) →
      ((l.map g).filter p).length ≤ (l.filter p).length := by
  intro l
  induction l with
  | nil => intro _; simp
  | cons a t ih =>
      intro h
      have iht := ih (fun x hx => h x (List.mem_cons_of_mem a hx))
      rw [List.map_cons, List.filter_cons, List.filter_cons]
      by_cases hga : p (g a) = true
      · have hpa : p a = true := h a (List.mem_cons_self a t) hga
        rw [if_pos hga, if_pos hpa]
        simpa using iht
      · rw [if_neg hga]
        by_cases hpa : p a = true
        · rw [if_pos hpa]
          exact Nat.le_succ_of_le iht
        · rw [if_neg hpa]
          exact iht

theorem length_filter_modify_le_one {k : Nat} {f : α → α}
    {p : Nat × α → Bool} :
    ∀ l : List (Nat × α), (l.map Prod.fst).Nodup →
      (∀ x ∈ l, p x = false) →
      ((modifyEntry l k f).filter p).length ≤ 1 := by
  intro l
  induction l with
  | nil => intro _ _; simp [modifyEntry]
  | cons a t ih =>
      intro hnd h0
      rw [List.map_cons, List.nodup_cons] at hnd
      have h0t : ∀ x ∈ t, p x = false :=
        fun x hx => h0 x (List.mem_cons_of_mem a hx)
      by_cases hak : a.1 = k
      · rw [modifyEntry_cons_of_eq t f hak]
        have hknot : k ∉ t.map Prod.fst := hak ▸ hnd.1
        rw [modifyEntry_of_not_mem f hknot]
        have hfilt : t.filter p = [] :=
          List.filter_eq_nil_iff.mpr (by
            intro x hx
            simp [h0t x hx])
        rw [List.filter_cons, hfilt]
        by_cases hph : p (a.1, f a.2) = true
        · rw [if_pos hph]
          simp
        · rw [if_neg hph]
          simp
      · rw [modifyEntry_cons_of_ne t f hak, List.filter_cons]
        have hpa : p a = false := h0 a (List.mem_cons_self a t)
        rw [hpa]
        simpa using ih hnd.2 h0t

/-- Rewriting one order document to one that the active-order query
does not match cannot raise the rider's active count. -/
theorem filter_modify_le {l : List (Nat × Order)} {oid : Nat} {o' : Order}
    {p : Nat × Order → Bool} (hp : ∀ n : Nat, p (n, o') = false) :
    ((modifyEntry l oid (fun _ => o')).filter p).length ≤
      (l.filter p).length := by
  unfold modifyEntry
  apply length_filter_map_le
  intro x hx hpx
  by_cases hxk : (x.1 == oid) = true
  · rw [if_pos hxk] at hpx
    rw [hp x.1] at hpx
    cases hpx
  · rw [if_neg hxk] at hpx
    exact hpx

theorem hasActiveOrder_false_iff (s : SysState) (rid : Nat) :
    hasActiveOrder s rid = false ↔ ∀ x ∈ s.orders, isActiveFor rid x = false := by
  unfold hasActiveOrder
  rw [← Bool.not_eq_true, List.any_eq_true]
  constructor
  · intro h x hx
    by_contra hc
    exact h ⟨x, hx, by simpa using hc⟩
  · rintro h ⟨x, hx, hpx⟩
    rw [h x hx] at hpx
    cases hpx

/-! ## Forward characterizations of the assign route -/

theorem riderEligible_iff (s : SysState) (rid : Nat) :
    riderEligible s rid = true ↔
      ∃ r, lookup s.riders rid = some r ∧ r.isActive = true := by
  unfold riderEligible
  rcases hr : lookup s.riders rid with _ | r <;> simp

theorem assign_error_of_ineligible {s : SysState} {oid rid : Nat}
    (h : riderEligible s rid = false) :
    assign s oid rid = .error .notFound := by
  unfold assign assignCheck
  split
  · rfl
  · next o ho =>
      split
      · rfl
      · next r hr =>
          have hact : r.isActive = false := by
            unfold riderEligible at h
            rw [hr] at h
            exact h
          rw [hact]
          simp [Except.map]

theorem assign_error_conflict {s : SysState} {oid rid : Nat} {o : Order}
    (ho : lookup s.orders oid = some o)
    (hel : riderEligible s rid = true) (hbusy : hasActiveOrder s rid = true) :
    assign s oid rid = .error .conflict := by
  unfold assign assignCheck
  split
  · next hnone => rw [ho] at hnone; cases hnone
  · next o2 ho2 =>
      split
      · next hrnone =>
          unfold riderEligible at hel
          rw [hrnone] at hel
          cases hel
      · next r hr =>
          have hact : r.isActive = true := by
            unfold riderEligible at hel
            rw [hr] at hel
            exact hel
          rw [hact, hbusy]
          simp [Except.map]

theorem assign_eq_ok {s : SysState} {oid rid : Nat} {o : Order} {r : Rider}
    (ho : lookup s.orders oid = some o)
    (hr : lookup s.riders rid = some r) (hact : r.isActive = true)
    (hbusy : hasActiveOrder s rid = false) :
    assign s oid rid = .ok (assignCommit s oid rid o) := by
  unfold assign assignCheck
  split
  · next hnone => rw [ho] at hnone; cases hnone
  · next o2 ho2 =>
      rw [ho] at ho2
      cases ho2
      split
      · next hrnone => rw [hr] at hrnone; cases hrnone
      · next r2 hr2 =>
          rw [hr] at hr2
          cases hr2
          rw [hact, hbusy]
          simp [Except.map]

/-! ## The status route's location truthiness -/

theorem entryLocation_eq_some_iff (lat lng : Option Int) (a b : Int) :
    entryLocation lat lng = some { latitude := a, longitude := b } ↔
      lat = some a ∧ lng = some b ∧ a ≠ 0 ∧ b ≠ 0 := by
  rcases lat with _ | x
  · simp [entryLocation]
  rcases lng with _ | y
  · simp [entryLocation]
  by_cases hx : x = 0
  · subst hx
    simp [entryLocation]
    intro h
    omega
  · by_cases hy : y = 0
    · subst hy
      simp [entryLocation, hx]
      intro _ h
      omega
    · simp [entryLocation, hx, hy, Coordinates.mk.injEq]
      rintro rfl rfl
      exact ⟨hx, hy⟩

/-! ## The claims -/

/-- C1: the claim states that after a successful
`transition(O, R, 'delivered', ...)` the order's `actualDeliveryTime`
is stamped with the server time AND the rider's
`RiderLocation.currentOrder` is cleared. On the concrete reachable run,
delivering order 10 (rider 1, clock 3) stamps
`actualDeliveryTime = 3` but leaves `currentOrder = some 10`: the
status route never touches the `RiderLocation` collection, so the
second half of the claim fails on the code. -/
theorem C1_delivered_keeps_currentOrder :
    transition st3 10 1 "delivered" none none none = .ok st4 ∧
    (lookup st4.orders 10).map Order.actualDeliveryTime = some (some st3.now) ∧
    (lookup st4.riderLocs 1).map RiderLocation.currentOrder =
      some (some 10) :=
  ⟨transition_st3, by decide, by decide⟩

/-- C2 (counterexample): the claim states that in every reachable state
each rider holds at most one active order. The run `st7` — assign order
10, deliver it, assign order 11, then move the delivered order 10 back
to `picked_up` through the adjacency-free status route — is reachable
and gives rider 1 two active orders. -/
theorem C2_counterexample : ∃ s, Reachable s ∧ ¬ AtMostOneActive s := by
  refine ⟨st7, reach_st7, fun h => ?_⟩
  have h1 := h 1
  exact absurd h1 (by decide)

/-- C2 (amended): order creation, assignment, and the fail route each
preserve the one-active-order-per-rider invariant (assignment under the
Mongo guarantee that order ids are unique); the rider status route is
the only operation that can break it. -/
theorem C2_amended :
    (∀ s oid biz pa da, AtMostOneActive s →
       AtMostOneActive (createOrder s oid biz pa da)) ∧
    (∀ s oid rid s', (s.orders.map Prod.fst).Nodup → AtMostOneActive s →
       assign s oid rid = .ok s' → AtMostOneActive s') ∧
    (∀ s oid rid reason s', AtMostOneActive s →
       failOrder s oid rid reason = .ok s' → AtMostOneActive s') := by
  refine ⟨?_, ?_, ?_⟩
  · intro s oid biz pa da h rid'
    have heq : activeCount (createOrder s oid biz pa da) rid' =
        activeCount s rid' := by
      simp [activeCount, createOrder, List.filter_append, isActiveFor]
    rw [heq]
    exact h rid'
  · intro s oid rid s' hnd h hok r'
    obtain ⟨o, r, ho, hr, hact, hbusy, rfl⟩ := assign_ok_inv hok
    by_cases he : r' = rid
    · subst he
      have h0 : ∀ x ∈ s.orders, isActiveFor r' x = false :=
        (hasActiveOrder_false_iff s r').mp hbusy
      show activeCount (assignCommit s oid r' o) r' ≤ 1
      simp only [activeCount, assignCommit]
      exact length_filter_modify_le_one s.orders hnd h0
    · show activeCount (assignCommit s oid rid o) r' ≤ 1
      simp only [activeCount, assignCommit]
      refine le_trans (filter_modify_le ?_) (h r')
      intro n
      simp only [isActiveFor]
      have : (some rid == some r') = false := by
        simp
        exact fun hh => he hh.symm
      simp [this]
  · intro s oid rid reason s' h hok r'
    obtain ⟨o, ho, hr, rfl⟩ := failOrder_ok_inv hok
    show activeCount (failResult s oid rid reason o) r' ≤ 1
    simp only [activeCount, failResult]
    refine le_trans (filter_modify_le ?_) (h r')
    intro n
    simp [isActiveFor, isActiveStatus]

/-- C2 (amended) witness: the preservation clauses applied on concrete
states — creating order 10 in the empty deployment keeps the invariant,
and so does assigning it to rider 1. -/
theorem C2_amended_witness :
    AtMostOneActive st2 ∧ AtMostOneActive st3 := by
  have h1 : AtMostOneActive initState := by
    intro rid
    simp [activeCount, initState]
  have h2 : AtMostOneActive st1 := by
    intro rid
    simp [activeCount, st1, createRider, initState]
  have h3 : AtMostOneActive st2 :=
    C2_amended.1 st1 10 5 "A" "B" h2
  refine ⟨h3, ?_⟩
  exact C2_amended.2.1 st2 10 1 st3 (by decide) h3 assign_st2

/-- C4: the claim states that the active-order check and the writes of
two concurrent `assign` calls for the same rider behave as one atomic
transaction, exactly one call succeeding. Modelling each request as its
read-and-check phase followed by its write phase (`assign` is
definitionally the two in sequence), the interleaving
check(10) · check(11) · write(10) · write(11) over the shared state
`raceState` lets both checks pass — neither returns `Conflict` — and
after both writes rider 1 holds two active orders. -/
theorem C4_assign_race :
    assign raceState 10 1 =
      .ok (assignCommit raceState 10 1 raceOrder10) ∧
    assignCheck raceState 10 1 = .ok raceOrder10 ∧
    assignCheck raceState 11 1 = .ok raceOrder11 ∧
    activeCount raceFinal 1 = 2 :=
  ⟨rfl, rfl, rfl, by decide⟩

/-- C3: the assign route's contract, over any reachable state: it
answers `NotFound` when the order is missing or no active rider with
the id exists, `Conflict` (the 400 "Rider already has an active order"
response) when the rider has an active order — mutating nothing, since
every error returns before any write — and on success binds the order
to the rider with status `assigned`, appends the `assigned` timeline
entry, and points the rider's `RiderLocation.currentOrder` at the
order. -/
theorem C3_assign_contract (s : SysState) (hs : Reachable s)
    (oid rid : Nat) :
    (lookup s.orders oid = none ∨ riderEligible s rid = false →
       assign s oid rid = .error .notFound) ∧
    (∀ o, lookup s.orders oid = some o → riderEligible s rid = true →
       hasActiveOrder s rid = true → assign s oid rid = .error .conflict) ∧
    (∀ o, lookup s.orders oid = some o → riderEligible s rid = true →
       hasActiveOrder s rid = false →
       ∃ s' loc, assign s oid rid = .ok s' ∧
         lookup s'.orders oid = some
           { o with rider := some rid, status := "assigned"
                    timeline := o.timeline ++
                      [{ status := "assigned", timestamp := s.now
                         notes := some "Order assigned to rider"
                         location := none }] } ∧
         lookup s.riderLocs rid = some loc ∧
         lookup s'.riderLocs rid = some { loc with currentOrder := some oid }) := by
  refine ⟨?_, ?_, ?_⟩
  · intro h
    rcases h with h | h
    · exact assign_error_of_no_order h
    · exact assign_error_of_ineligible h
  · intro o ho hel hbusy
    exact assign_error_conflict ho hel hbusy
  · intro o ho hel hfree
    obtain ⟨r, hr, hact⟩ := (riderEligible_iff s rid).mp hel
    obtain ⟨loc, hloc⟩ := (reachable_inv hs).riderHasLoc rid r hr
    refine ⟨assignCommit s oid rid o, loc,
      assign_eq_ok ho hr hact hfree, ?_, hloc, ?_⟩
    · simp only [assignCommit]
      exact lookup_modifyEntry_self _ ho
    · simp only [assignCommit]
      exact lookup_modifyEntry_self _ hloc

/-- C3 witness: the contract's success clause evaluated on the concrete
reachable state `st2` (rider 1 free, order 10 pending). -/
theorem C3_assign_contract_witness :
    ∃ s' loc, assign st2 10 1 = .ok s' ∧
      lookup s'.orders 10 = some
        { pendingOrder10 with
            rider := some 1
            status := "assigned"
            timeline := pendingOrder10.timeline ++
              [{ status := "assigned", timestamp := st2.now
                 notes := some "Order assigned to rider"
                 location := none }] } ∧
      lookup st2.riderLocs 1 = some loc ∧
      lookup s'.riderLocs 1 = some { loc with currentOrder := some 10 } :=
  (C3_assign_contract st2 reach_st2 10 1).2.2 pendingOrder10
    (by decide) (by decide) (by decide)

/-- C9: the assign route places no precondition on the order's current
status: whatever `o.status` is — delivered, failed, cancelled, or
assigned to another rider — assignment succeeds whenever the target
rider exists, is active, and has no active order, overwriting
`order.rider` and resetting the status to `assigned`. -/
theorem C9_assign_ignores_status (s : SysState) (oid rid : Nat)
    (o : Order) (r : Rider) (ho : lookup s.orders oid = some o)
    (hr : lookup s.riders rid = some r) (hact : r.isActive = true)
    (hfree : hasActiveOrder s rid = false) :
    ∃ s', assign s oid rid = .ok s' ∧
      lookup s'.orders oid = some
        { o with rider := some rid, status := "assigned"
                 timeline := o.timeline ++
                   [{ status := "assigned", timestamp := s.now
                      notes := some "Order assigned to rider"
                      location := none }] } :=
  ⟨assignCommit s oid rid o, assign_eq_ok ho hr hact hfree,
    by simp only [assignCommit]; exact lookup_modifyEntry_self _ ho⟩

/-- C9 witness: a delivered order owned by rider 2 is handed to rider 1
without complaint. -/
theorem C9_assign_ignores_status_witness :
    ∃ s', assign w9State 10 1 = .ok s' ∧
      lookup s'.orders 10 = some
        { deliveredOrder with
            rider := some 1
            status := "assigned"
            timeline := deliveredOrder.timeline ++
              [{ status := "assigned", timestamp := w9State.now
                 notes := some "Order assigned to rider"
                 location := none }] } :=
  C9_assign_ignores_status w9State 10 1 deliveredOrder { isActive := true }
    (by decide) (by decide) (by decide) (by decide)

/-- C6 (amended): the rider status route answers `NotFound` exactly
when the order is missing or not owned by the acting rider; for every
target status string — adjacency is never checked — it succeeds and
appends a timeline entry carrying the server clock, the given notes,
and a location exactly when both coordinates are supplied AND nonzero
(the JS truthiness check `latitude && longitude` drops a zero
coordinate). -/
theorem C6_transition_contract (s : SysState) (oid rid : Nat)
    (status : String) (notes : Option String) (lat lng : Option Int) :
    (transition s oid rid status notes lat lng = .error .notFound ↔
       lookup s.orders oid = none ∨
         ∃ o, lookup s.orders oid = some o ∧ o.rider ≠ some rid) ∧
    (∀ o, lookup s.orders oid = some o → o.rider = some rid →
       ∃ s' o', transition s oid rid status notes lat lng = .ok s' ∧
         lookup s'.orders oid = some o' ∧
         o'.status = status ∧
         o'.timeline = o.timeline ++
           [{ status := status, timestamp := s.now, notes := notes
              location := entryLocation lat lng }] ∧
         (∀ a b, entryLocation lat lng =
             some { latitude := a, longitude := b } ↔
           lat = some a ∧ lng = some b ∧ a ≠ 0 ∧ b ≠ 0)) := by
  refine ⟨transition_error_iff, ?_⟩
  intro o ho hr
  refine ⟨transitionResult s oid status notes lat lng o,
    { o with status := status
             timeline := o.timeline ++
               [{ status := status, timestamp := s.now, notes := notes
                  location := entryLocation lat lng }]
             actualDeliveryTime :=
               if status == "delivered" then some s.now
               else o.actualDeliveryTime },
    transition_eq_ok ho hr, ?_, rfl, rfl,
    fun a b => entryLocation_eq_some_iff lat lng a b⟩
  simp only [transitionResult]
  exact lookup_modifyEntry_self _ ho

/-- C6 witness: a non-adjacent jump is accepted — moving the assigned
order 11 of `st6` straight to `delivered` succeeds with the notes and
clock stored. -/
theorem C6_transition_contract_witness :
    ∃ s' o',
      transition st6 11 1 "delivered" (some "jump") none none = .ok s' ∧
      lookup s'.orders 11 = some o' ∧
      o'.status = "delivered" ∧
      o'.timeline = st6Order11.timeline ++
        [{ status := "delivered", timestamp := st6.now
           notes := some "jump", location := entryLocation none none }] ∧
      (∀ a b, entryLocation none none =
          some { latitude := a, longitude := b } ↔
        (none : Option Int) = some a ∧ (none : Option Int) = some b ∧
          a ≠ 0 ∧ b ≠ 0) :=
  (C6_transition_contract st6 11 1 "delivered" (some "jump") none none).2
    st6Order11 (by decide) (by decide)

/-- C6 (counterexample): with coordinates supplied as
`latitude = 0, longitude = 1`, the appended timeline entry carries no
location, refuting "the location exactly when coordinates are
supplied". -/
theorem C6_counterexample :
    transition st3 10 1 "picked_up" none (some 0) (some 1) =
      .ok c6After ∧
    lookup c6After.orders 10 = some c6Order ∧
    c6Order.timeline.getLast? = some
      { status := "picked_up", timestamp := st3.now
        notes := none, location := none } :=
  ⟨rfl, by decide, by decide⟩

/-- C5 (counterexample): the claim states that `fail` produces exactly
the same resulting order and side effects as
`transition(..., 'failed', "Delivery failed: " + reason)` with the sole
extra effect of setting `failureReason`. From `st3` (order 10 active
for rider 1, `currentOrder = 10`), the two calls leave different
`RiderLocation` states: the fail route `$unset`s `currentOrder` while
the status route leaves it pointing at order 10 — a side-effect
difference beyond `failureReason`. -/
theorem C5_counterexample :
    failOrder st3 10 1 "customer unreachable" = .ok c5Fail ∧
    transition st3 10 1 "failed"
      (some "Delivery failed: customer unreachable") none none =
        .ok c5Trans ∧
    (lookup c5Fail.riderLocs 1).map RiderLocation.currentOrder =
      some none ∧
    (lookup c5Trans.riderLocs 1).map RiderLocation.currentOrder =
      some (some 10) :=
  ⟨rfl, rfl, by decide, by decide⟩

/-- C5 (amended): on any state where both calls succeed, `fail` yields
the same resulting order as the equivalent transition except for
additionally setting `failureReason`, and leaves every other order
equal; but the side effects differ: `fail` clears the rider's
`currentOrder` where the transition leaves the location store
untouched, and `fail`'s status event carries the reason and no
location object where the transition's carries a location object and
no reason. -/
theorem C5_fail_refines_transition (s : SysState) (oid rid : Nat)
    (reason : String) (sf st : SysState)
    (hf : failOrder s oid rid reason = .ok sf)
    (ht : transition s oid rid "failed"
      (some ("Delivery failed: " ++ reason)) none none = .ok st) :
    (∀ o, lookup s.orders oid = some o →
       ∃ ot, lookup st.orders oid = some ot ∧
         lookup sf.orders oid = some { ot with failureReason := some reason }) ∧
    (∀ oid2, oid2 ≠ oid → lookup sf.orders oid2 = lookup st.orders oid2) ∧
    sf.riderLocs = modifyEntry s.riderLocs rid
      (fun loc => { loc with currentOrder := none }) ∧
    st.riderLocs = s.riderLocs ∧
    sf.events = s.events ++
      [{ kind := .statusUpdate, orderId := oid, status := some "failed"
         timestamp := s.now, location := none, reason := some reason }] ∧
    st.events = s.events ++
      [{ kind := .statusUpdate, orderId := oid, status := some "failed"
         timestamp := s.now, location := some (none, none)
         reason := none }] := by
  obtain ⟨o1, ho1, hr1, rfl⟩ := failOrder_ok_inv hf
  obtain ⟨o2, ho2, hr2, rfl⟩ := transition_ok_inv ht
  rw [ho1] at ho2
  cases ho2
  refine ⟨?_, ?_, rfl, rfl, rfl, rfl⟩
  · intro o ho
    rw [ho1] at ho
    cases ho
    refine ⟨{ o1 with
                status := "failed"
                timeline := o1.timeline ++
                  [{ status := "failed", timestamp := s.now
                     notes := some ("Delivery failed: " ++ reason)
                     location := none }] }, ?_, ?_⟩
    · simp only [transitionResult]
      exact lookup_modifyEntry_self _ ho1
    · simp only [failResult]
      rw [lookup_modifyEntry_self _ ho1]
  · intro oid2 hne
    simp only [failResult, transitionResult]
    rw [lookup_modifyEntry_ne _ hne, lookup_modifyEntry_ne _ hne]

/-- C5 witness: the refinement relation evaluated at the concrete pair
of calls from `st3`. -/
theorem C5_fail_refines_transition_witness :
    (∀ o, lookup st3.orders 10 = some o →
       ∃ ot, lookup c5Trans.orders 10 = some ot ∧
         lookup c5Fail.orders 10 = some
           { ot with failureReason := some "customer unreachable" }) ∧
    (∀ oid2, oid2 ≠ 10 →
       lookup c5Fail.orders oid2 = lookup c5Trans.orders oid2) ∧
    c5Fail.riderLocs = modifyEntry st3.riderLocs 1
      (fun loc => { loc with currentOrder := none }) ∧
    c5Trans.riderLocs = st3.riderLocs ∧
    c5Fail.events = st3.events ++
      [{ kind := .statusUpdate, orderId := 10, status := some "failed"
         timestamp := st3.now, location := none
         reason := some "customer unreachable" }] ∧
    c5Trans.events = st3.events ++
      [{ kind := .statusUpdate, orderId := 10, status := some "failed"
         timestamp := st3.now, location := some (none, none)
         reason := none }] :=
  C5_fail_refines_transition st3 10 1 "customer unreachable"
    c5Fail c5Trans rfl rfl

/-- C7: in every reachable state, every order's timeline ends with an
entry whose status equals the order's current status and carries
non-decreasing timestamps; moreover every single route call only
appends to a timeline (any order present before and after a step keeps
its old timeline as a prefix). -/
theorem C7_timeline_invariant (s : SysState) (hs : Reachable s) :
    (∀ oid o, lookup s.orders oid = some o →
       (o.timeline.getLast?).map TimelineEntry.status = some o.status ∧
       List.Chain' (fun a b => a.timestamp ≤ b.timestamp) o.timeline) ∧
    (∀ s', Step s s' → ∀ oid o o', lookup s.orders oid = some o →
       lookup s'.orders oid = some o' →
       ∃ t, o'.timeline = o.timeline ++ t) := by
  have hinv := reachable_inv hs
  refine ⟨fun oid o ho =>
    ⟨hinv.lastStatus oid o ho, hinv.stampsMono oid o ho⟩, ?_⟩
  intro s' hstep oid o o' ho ho'
  cases hstep with
  | create_rider rid hfresh =>
      simp only [createRider] at ho'
      rw [ho] at ho'
      cases ho'
      exact ⟨[], (List.append_nil _).symm⟩
  | create_order noid biz pa da hfresh =>
      simp only [createOrder] at ho'
      rw [lookup_append_of_some _ ho] at ho'
      cases ho'
      exact ⟨[], (List.append_nil _).symm⟩
  | assign_order noid nrid s2 hok =>
      obtain ⟨o1, r1, ho1, hr1, hact1, hbusy1, rfl⟩ := assign_ok_inv hok
      simp only [assignCommit] at ho'
      rcases lookup_modify_const_cases ho1 ho' with ⟨heq, hu⟩ | ⟨hne, h2⟩
      · subst heq
        rw [ho1] at ho
        cases ho
        subst hu
        exact ⟨_, rfl⟩
      · rw [ho] at h2
        cases h2
        exact ⟨[], (List.append_nil _).symm⟩
  | transition_order noid nrid status notes lat lng s2 hok =>
      obtain ⟨o1, ho1, hr1, rfl⟩ := transition_ok_inv hok
      simp only [transitionResult] at ho'
      rcases lookup_modify_const_cases ho1 ho' with ⟨heq, hu⟩ | ⟨hne, h2⟩
      · subst heq
        rw [ho1] at ho
        cases ho
        subst hu
        exact ⟨_, rfl⟩
      · rw [ho] at h2
        cases h2
        exact ⟨[], (List.append_nil _).symm⟩
  | fail_order noid nrid reason s2 hok =>
      obtain ⟨o1, ho1, hr1, rfl⟩ := failOrder_ok_inv hok
      simp only [failResult] at ho'
      rcases lookup_modify_const_cases ho1 ho' with ⟨heq, hu⟩ | ⟨hne, h2⟩
      · subst heq
        rw [ho1] at ho
        cases ho
        subst hu
        exact ⟨_, rfl⟩
      · rw [ho] at h2
        cases h2
        exact ⟨[], (List.append_nil _).symm⟩
  | update_location rid lat lng onl r hrid =>
      obtain ⟨loc, hloc⟩ := hinv.riderHasLoc rid r hrid
      simp only [updateLocation, hloc] at ho'
      rw [ho] at ho'
      cases ho'
      exact ⟨[], (List.append_nil _).symm⟩
  | toggle_online rid s2 hok =>
      obtain ⟨loc, hloc, rfl⟩ := toggleOnline_ok_inv hok
      rw [ho] at ho'
      cases ho'
      exact ⟨[], (List.append_nil _).symm⟩
  | toggle_user uid s2 hok =>
      obtain ⟨r, hr, rfl⟩ := toggleUserStatus_ok_inv hok
      rw [ho] at ho'
      cases ho'
      exact ⟨[], (List.append_nil _).symm⟩

/-- C7 witness: the invariant evaluated on the concrete reachable state
`st6` (orders 10 delivered and 11 assigned). -/
theorem C7_timeline_invariant_witness :
    (∀ oid o, lookup st6.orders oid = some o →
       (o.timeline.getLast?).map TimelineEntry.status = some o.status ∧
       List.Chain' (fun a b => a.timestamp ≤ b.timestamp) o.timeline) ∧
    (∀ s', Step st6 s' → ∀ oid o o', lookup st6.orders oid = some o →
       lookup s'.orders oid = some o' →
       ∃ t, o'.timeline = o.timeline ++ t) :=
  C7_timeline_invariant st6 reach_st6

/-- C8: the location route upserts the rider's record — creating it
with `currentOrder` unset when absent, otherwise overwriting the
coordinates and online flag while keeping `currentOrder` — and emits a
location event exactly when the record's `currentOrder` is set;
the stored record does not depend on the state of the event channel. -/
theorem C8_updateLocation_contract (s : SysState) (rid : Nat)
    (lat lng : Int) (onl : Option Bool) :
    (lookup s.riderLocs rid = none →
       lookup (updateLocation s rid lat lng onl).riderLocs rid =
         some { location := { latitude := lat, longitude := lng }
                isOnline := onl.getD true, currentOrder := none } ∧
       (updateLocation s rid lat lng onl).events = s.events) ∧
    (∀ loc, lookup s.riderLocs rid = some loc →
       lookup (updateLocation s rid lat lng onl).riderLocs rid =
         some { loc with location := { latitude := lat, longitude := lng }
                         isOnline := onl.getD true } ∧
       (updateLocation s rid lat lng onl).events = s.events ++
         (match loc.currentOrder with
          | some oid =>
              [{ kind := .locationUpdate, orderId := oid, status := none
                 timestamp := s.now, location := some (some lat, some lng)
                 reason := none }]
          | none => []) ∧
       ((updateLocation s rid lat lng onl).events ≠ s.events ↔
          loc.currentOrder ≠ none)) ∧
    (∀ evs,
       (updateLocation { s with events := evs } rid lat lng onl).riderLocs =
         (updateLocation s rid lat lng onl).riderLocs) := by
  refine ⟨?_, ?_, fun evs => rfl⟩
  · intro hnone
    simp only [updateLocation, hnone]
    refine ⟨?_, ?_⟩
    · rw [lookup_append_of_none _ hnone, lookup_singleton, if_pos rfl]
    · simp
  · intro loc hloc
    simp only [updateLocation, hloc]
    refine ⟨lookup_modifyEntry_self _ hloc, by trivial, ?_⟩
    rcases hco : loc.currentOrder with _ | oid
    · simp [hco]
    · simp [hco]

/-- C8 witness: upsert and event emission evaluated at `st3` (rider 1
holds order 10, so a location event scoped to order 10 is emitted). -/
theorem C8_updateLocation_contract_witness :
    lookup (updateLocation st3 1 7 8 none).riderLocs 1 =
      some { st3Loc with location := { latitude := 7, longitude := 8 }
                         isOnline := true } ∧
    (updateLocation st3 1 7 8 none).events = st3.events ++
      (match st3Loc.currentOrder with
       | some oid =>
           [{ kind := .locationUpdate, orderId := oid, status := none
              timestamp := st3.now, location := some (some 7, some 8)
              reason := none }]
       | none => []) ∧
    ((updateLocation st3 1 7 8 none).events ≠ st3.events ↔
       st3Loc.currentOrder ≠ none) :=
  (C8_updateLocation_contract st3 1 7 8 none).2.1 st3Loc (by decide)

/-- C10: when the `isOnline` field is omitted from the request body,
the location route sets the rider's `isOnline` flag to `true`
unconditionally rather than keeping its previous value — an offline
rider comes back online by merely reporting a position. -/
theorem C10_isOnline_defaults_true (s : SysState) (rid : Nat)
    (lat lng : Int) (loc : RiderLocation)
    (h : lookup s.riderLocs rid = some loc) (hoff : loc.isOnline = false) :
    ∃ loc', lookup (updateLocation s rid lat lng none).riderLocs rid =
        some loc' ∧ loc'.isOnline = true := by
  refine ⟨{ loc with location := { latitude := lat, longitude := lng }
                     isOnline := true }, ?_, rfl⟩
  simp only [updateLocation, h]
  exact lookup_modifyEntry_self _ h

/-- C10 witness: rider 1 is offline in `st3`; a bare location report
flips the flag to online. -/
theorem C10_isOnline_defaults_true_witness :
    ∃ loc', lookup (updateLocation st3 1 7 8 none).riderLocs 1 =
        some loc' ∧ loc'.isOnline = true :=
  C10_isOnline_defaults_true st3 1 7 8 st3Loc (by decide) (by decide)

end Mandoob
